import Mathlib

/-!
Verification development for the podman-gitops reconciliation core.

Shallow embedding of:
- the SQLite-backed state store (src/state/manager.py: StateManager),
- the per-cycle git change cache (src/core/git_manager.py: GitManager),
- quadlet discovery/ordering/deployment (src/core/quadlet_handler.py),
- the per-application reconciliation pipeline
  (src/core/app_manager.py: ApplicationManager.process_application),
- one iteration of the main service loop (src/main.py: main).

External effects (git fetch/pull, systemd calls, health probes, the
filesystem) are parameters of the embedding; database writes are pure
state transitions on a `DB` value.  Timestamps are not modelled; the
"last" deployment row for an app is the most recently inserted one,
matching `ORDER BY timestamp DESC LIMIT 1` under monotone insertion.
-/

namespace PodmanGitops

/-- A row of the `deployments` table. -/
structure Deployment where
  id : Nat
  app_name : String
  commit_hash : String
  status : String
  error_message : Option String
deriving Repr, DecidableEq

/-- A row of the `services` table (composite key `(app_name, service_name)`). -/
structure Service where
  app_name : String
  service_name : String
  state : String
  container_id : Option String
  deployment_id : Option Nat
deriving Repr, DecidableEq

/-- A row of the `health_checks` table (append-only). -/
structure HealthCheckRecord where
  app_name : String
  service_name : String
  status : String
deriving Repr, DecidableEq

/-- A row of the `error_log` table (append-only); `service_name = none` means
an application-level error. -/
structure ErrorRecord where
  app_name : String
  service_name : Option String
  error_message : String
deriving Repr, DecidableEq

/-- The state-store database.  `next_deployment_id` models the AUTOINCREMENT
primary key of `deployments`. -/
structure DB where
  applications : List String
  deployments : List Deployment
  services : List Service
  health_checks : List HealthCheckRecord
  error_log : List ErrorRecord
  next_deployment_id : Nat
deriving Repr, DecidableEq

/-- A freshly initialized database (`StateManager._init_db`). -/
def DB.empty : DB := ⟨[], [], [], [], [], 1⟩

/-- Embeds `StateManager.register_application`: upsert of the application row.
Only the key is modelled (description / timestamps carry no information the
claims use). -/
def register_application (db : DB) (app : String) : DB :=
  if db.applications.contains app then db
  else { db with applications := db.applications ++ [app] }

/-- Embeds `StateManager.start_deployment`: registers the app, then inserts a new
deployment row with status `in_progress` and returns its id. -/
def start_deployment (db : DB) (app commit : String) : DB × Nat :=
  let db := register_application db app
  let id := db.next_deployment_id
  ({ db with
      deployments := db.deployments ++ [⟨id, app, commit, "in_progress", none⟩],
      next_deployment_id := id + 1 }, id)

/-- Embeds `StateManager.finish_deployment`: `UPDATE deployments SET status, error
WHERE id = ?` — unconditional, no guard on the current status. -/
def finish_deployment (db : DB) (id : Nat) (status : String)
    (err : Option String) : DB :=
  { db with
      deployments := db.deployments.map fun d =>
        if d.id == id then { d with status := status, error_message := err }
        else d }

/-- Embeds `StateManager.record_deployment`: registers the app and inserts a complete
deployment row with the given status directly. -/
def record_deployment (db : DB) (app commit status : String)
    (err : Option String) : DB × Nat :=
  let db := register_application db app
  let id := db.next_deployment_id
  ({ db with
      deployments := db.deployments ++ [⟨id, app, commit, status, err⟩],
      next_deployment_id := id + 1 }, id)

/-- The `WHERE app_name = ? AND service_name = ?` predicate on service
rows. -/
def svc_key (app svc : String) (e : Service) : Bool :=
  e.app_name == app && e.service_name == svc

/-- The `UPDATE services SET ...` row transformation of `update_service`:
the state is overwritten; `deployment_id` / `container_id` only when the
corresponding argument is not `none`. -/
def upd_row (st : String) (dep : Option Nat) (cid : Option String)
    (e : Service) : Service :=
  { e with
      state := st,
      deployment_id := match dep with
        | some d => some d
        | none => e.deployment_id,
      container_id := match cid with
        | some c => some c
        | none => e.container_id }

/-- Embeds `StateManager.update_service`: upsert keyed on
`(app_name, service_name)`. -/
def update_service (db : DB) (app svc st : String) (dep : Option Nat)
    (cid : Option String) : DB :=
  if db.services.any (svc_key app svc) then
    { db with
        services := db.services.map fun e =>
          if svc_key app svc e then upd_row st dep cid e else e }
  else
    { db with services := db.services ++ [⟨app, svc, st, cid, dep⟩] }

/-- Embeds `StateManager.get_service_state`. -/
def get_service_state (db : DB) (app svc : String) : Option String :=
  (db.services.find? (svc_key app svc)).map (·.state)

/-- Embeds `StateManager.add_health_check`: creates the service row with state
`unknown` if it does not exist, then appends the health record. -/
def add_health_check (db : DB) (app svc status : String) : DB :=
  let db :=
    if db.services.any (svc_key app svc) then db
    else update_service db app svc "unknown" none none
  { db with health_checks := db.health_checks ++ [⟨app, svc, status⟩] }

/-- Embeds `StateManager.set_last_error`: appends an error record; when the error is
service-level it additionally calls `update_service(app, svc, "error")`. -/
def set_last_error (db : DB) (app : String) (svc : Option String)
    (msg : String) : DB :=
  let db := { db with error_log := db.error_log ++ [⟨app, svc, msg⟩] }
  match svc with
  | some s => update_service db app s "error" none none
  | none => db

/-- Status of the deployment row with the given id (first match, ids are
assigned uniquely from a fresh store). -/
def deployment_status (db : DB) (id : Nat) : Option String :=
  (db.deployments.find? fun d => d.id == id).map (·.status)

/-- Status of the most recently inserted deployment row for an app
(`ORDER BY timestamp DESC LIMIT 1` under monotone insertion). -/
def last_deployment_status (db : DB) (app : String) : Option String :=
  ((db.deployments.filter fun d => d.app_name == app).getLast?).map (·.status)

example : (start_deployment DB.empty "web" "abc").2 = 1 := by decide

example :
    deployment_status (finish_deployment
      (start_deployment DB.empty "web" "abc").1 1 "success" none) 1
      = some "success" := by decide

example :
    get_service_state (set_last_error
      (update_service DB.empty "web" "s" "failed" (some 1) none)
      "web" (some "s") "boom") "web" "s" = some "error" := by decide

/-! ## Quadlet handler (src/core/quadlet_handler.py) -/

/-- The closed file classification of `QuadletHandler` (`QUADLET_TYPES` plus
the catch-all `config`). -/
inductive QType
  | network
  | volume
  | image
  | container
  | config
deriving Repr, DecidableEq

/-- Deployment rank of a file type, following `processing_order`
(`['network', 'volume', 'image', 'container', 'config']`). -/
def QType.rank : QType → Nat
  | .network => 0
  | .volume => 1
  | .image => 2
  | .container => 3
  | .config => 4

/-- A discovered manifest file: basename stem and extension (with the dot). -/
structure QFile where
  stem : String
  ext : String
deriving Repr, DecidableEq

/-- Embeds `QuadletHandler._get_file_type`: pure classification by extension; any
extension outside `QUADLET_TYPES` is `config`. -/
def get_file_type (f : QFile) : QType :=
  if f.ext == ".container" then .container
  else if f.ext == ".image" then .image
  else if f.ext == ".network" then .network
  else if f.ext == ".volume" then .volume
  else .config

/-- The manifest source directory as seen by `find_quadlet_files`: whether it
exists and, if so, the files the glob patterns enumerate (the enumeration
order is arbitrary and quantified over in the theorems). -/
structure QuadletDir where
  present : Bool
  files : List QFile
deriving Repr

/-- Embeds `QuadletHandler.find_quadlet_files`: a missing directory yields the empty
list (with a warning), otherwise the enumerated files. -/
def find_quadlet_files (d : QuadletDir) : List QFile :=
  if d.present then d.files else []

/-- The processing order of `process_and_deploy_app_quadlets`: the
`files_by_type` buckets (input order preserved inside each bucket)
concatenated in `processing_order`. -/
def ordered_files (files : List QFile) : List QFile :=
  (files.filter fun f => get_file_type f == .network)
  ++ (files.filter fun f => get_file_type f == .volume)
  ++ (files.filter fun f => get_file_type f == .image)
  ++ (files.filter fun f => get_file_type f == .container)
  ++ (files.filter fun f => get_file_type f == .config)

/-- Outcome of handling one file: template processing raised
(`EnvProcessor.process_quadlet_file`), the copy into the systemd directory
failed (`deploy_processed_file` returned `False`), or both succeeded. -/
inductive FileOutcome
  | ok
  | templateErr (msg : String)
  | copyFail
deriving Repr, DecidableEq

/-- Environment of one `process_and_deploy_app_quadlets` call: the manifest
directory and the external outcome for each file. -/
structure PAEnv where
  dir : QuadletDir
  outcome : QFile → FileOutcome

/-- Result of `process_and_deploy_app_quadlets`: the returned pair
`(success, deployed_services)` plus the files copied into the managed
systemd directory during this attempt (in copy order; the code never removes
a file it copied). -/
structure PAResult where
  success : Bool
  deployed_services : List String
  copied : List QFile
deriving Repr, DecidableEq

/-- The per-file loop of `process_and_deploy_app_quadlets`: stops at the
first template or copy failure, returning the container names deployed so
far; a successfully copied container file appends its stem to
`deployed_services`. -/
def pa_go (outcome : QFile → FileOutcome) :
    List QFile → List String → List QFile → PAResult
  | [], deployed, copied => ⟨true, deployed, copied⟩
  | f :: rest, deployed, copied =>
    match outcome f with
    | .templateErr _ => ⟨false, deployed, copied⟩
    | .copyFail => ⟨false, deployed, copied⟩
    | .ok =>
      pa_go outcome rest
        (if get_file_type f == .container then deployed ++ [f.stem]
         else deployed)
        (copied ++ [f])

/-- Embeds `QuadletHandler.process_and_deploy_app_quadlets`: an empty discovery
(including a missing directory) returns `(True, [])`; otherwise the ordered
per-file loop runs. -/
def process_and_deploy (env : PAEnv) : PAResult :=
  let files := find_quadlet_files env.dir
  if files.isEmpty then ⟨true, [], []⟩
  else pa_go env.outcome (ordered_files files) [] []

/-- Container stems of a file list, in order. -/
def container_stems (l : List QFile) : List String :=
  (l.filter fun f => get_file_type f == .container).map (·.stem)

/-! ## Git change cache (src/core/git_manager.py) -/

/-- Embeds `GitManager`: per-cycle memo sets keyed by repository URL. -/
structure GitManager where
  checked_repos : List String
  repos_with_changes : List String
deriving Repr, DecidableEq

/-- Embeds `GitManager.__init__`. -/
def GitManager.init : GitManager := ⟨[], []⟩

/-- Result of one `check_for_changes` call: the reported boolean, the updated
cache, and how many underlying `GitOperations.has_changes` fetches the call
performed. -/
structure CheckResult where
  has_changes : Bool
  gm : GitManager
  fetches : Nat
deriving Repr, DecidableEq

/-- Embeds `GitManager.check_for_changes`: answered from the memo when the URL was
already checked this cycle, otherwise one fetch (`oracle url`) is performed
and memoized. -/
def check_for_changes (oracle : String → Bool) (gm : GitManager)
    (url : String) : CheckResult :=
  if gm.checked_repos.contains url then
    ⟨gm.repos_with_changes.contains url, gm, 0⟩
  else
    let b := oracle url
    ⟨b,
     ⟨gm.checked_repos ++ [url],
      if b then gm.repos_with_changes ++ [url] else gm.repos_with_changes⟩,
     1⟩

/-- Embeds `GitManager.reset_cycle`: clears both memo sets. -/
def reset_cycle (_gm : GitManager) : GitManager := ⟨[], []⟩

example :
    (check_for_changes (fun _ => true)
      (check_for_changes (fun _ => true) GitManager.init "u").gm "u").fetches
      = 0 := by decide

/-! ## Orchestrator (src/core/app_manager.py: ApplicationManager.process_application) -/

/-- An external call that either returns a value or raises an exception with
the given text (uncaught at its call site inside `process_application`). -/
inductive ExtCall (α : Type)
  | ret (a : α)
  | raises (msg : String)
deriving Repr, DecidableEq

/-- Outcome of `HealthChecker.check_container_health` for one service: a
health payload (`healthy` flag plus its `status` string) or an exception,
which `process_application` catches per service. -/
inductive HealthResult
  | ok (healthy : Bool) (status : String)
  | exc (msg : String)
deriving Repr, DecidableEq

/-- Environment of one `process_application` call: configuration lookup,
presence and behaviour of the git working copy, the quadlet-processing
environment, and the systemd/health collaborators. -/
structure ProcEnv where
  configured : Bool
  use_git : Bool
  pull : ExtCall Bool
  commit : String
  quadlet : PAEnv
  reload : ExtCall Bool
  start : String → ExtCall Bool
  health : String → HealthResult
  stabilize : String → Bool

/-- Trace of external side effects of one reconciliation: how many times the
quadlet processor was invoked, how many daemon reloads, and which services
were passed to `systemctl start` / `systemctl stop` (in order). -/
structure Trace where
  quadlet_calls : Nat
  reload_calls : Nat
  started : List String
  stopped : List String
deriving Repr, DecidableEq

/-- The empty trace. -/
def Trace.empty : Trace := ⟨0, 0, [], []⟩

/-- The service-start loop of `process_application` (lines 146-182): each
service is set `starting`, started, then set `running` on success or set
`failed` and error-logged on a nonzero result; the loop continues over the
remaining services either way.  An exception from `start_service` escapes. -/
def start_loop (env : ProcEnv) (app : String) (dep : Nat) :
    List String → DB → Trace → Bool →
    Except (String × DB × Trace) (DB × Trace × Bool)
  | [], db, tr, allStarted => .ok (db, tr, allStarted)
  | svc :: rest, db, tr, allStarted =>
    let db := update_service db app svc "starting" (some dep) none
    let tr := { tr with started := tr.started ++ [svc] }
    match env.start svc with
    | .raises msg => .error (msg, db, tr)
    | .ret false =>
      let db := update_service db app svc "failed" (some dep) none
      let db := set_last_error db app (some svc) "Failed to start service"
      start_loop env app dep rest db tr false
    | .ret true =>
      let db := update_service db app svc "running" (some dep) none
      start_loop env app dep rest db tr allStarted

/-- The immediate health-probe loop (lines 197-257): per-service exceptions
are caught (`unknown` + error record); an unhealthy probe marks the service
`unhealthy` and error-logs it; probing continues for all services. -/
def health_loop (env : ProcEnv) (app : String) (dep : Nat) :
    List String → DB → Bool → DB × Bool
  | [], db, allHealthy => (db, allHealthy)
  | svc :: rest, db, allHealthy =>
    match env.health svc with
    | .exc msg =>
      let db := update_service db app svc "unknown" (some dep) none
      let db := set_last_error db app (some svc) ("Health check error: " ++ msg)
      health_loop env app dep rest db false
    | .ok true status =>
      let db := update_service db app svc "running" (some dep) none
      let db := add_health_check db app svc status
      health_loop env app dep rest db allHealthy
    | .ok false status =>
      let db := update_service db app svc "unhealthy" (some dep) none
      let db := set_last_error db app (some svc)
        ("Health check failed: " ++ status)
      health_loop env app dep rest db false

/-- The stabilization-wait loop (lines 263-279): a service that fails
`wait_for_healthy` is marked `unstable` and error-logged; the loop
continues. -/
def stabilize_loop (env : ProcEnv) (app : String) (dep : Nat) :
    List String → DB → Bool → DB × Bool
  | [], db, allHealthy => (db, allHealthy)
  | svc :: rest, db, allHealthy =>
    if env.stabilize svc then stabilize_loop env app dep rest db allHealthy
    else
      let db := update_service db app svc "unstable" (some dep) none
      let db := set_last_error db app (some svc)
        "Service did not stabilize within timeout period"
      stabilize_loop env app dep rest db false

/-- Steps 3-9 of `process_application` once the commit hash is resolved:
open the deployment, process and deploy quadlets, reload the daemon, start
services, probe, stabilize, and close the deployment. -/
def process_application_core (env : ProcEnv) (app commit : String)
    (db : DB) (tr : Trace) :
    Except (String × DB × Trace) (Bool × DB × Trace) :=
  let p := start_deployment db app commit
  let db := p.1
  let dep := p.2
  let tr := { tr with quadlet_calls := tr.quadlet_calls + 1 }
  let r := process_and_deploy env.quadlet
  if r.success = false then
    .ok (false,
      finish_deployment db dep "failed" (some "Failed to process quadlet files"),
      tr)
  else
    match env.reload with
    | .raises msg =>
      .error (msg, db, { tr with reload_calls := tr.reload_calls + 1 })
    | .ret false =>
      .ok (false,
        finish_deployment db dep "failed"
          (some "Failed to reload systemd daemon"),
        { tr with reload_calls := tr.reload_calls + 1 })
    | .ret true =>
      let tr := { tr with reload_calls := tr.reload_calls + 1 }
      match start_loop env app dep r.deployed_services db tr true with
      | .error e => .error e
      | .ok (db, tr, allStarted) =>
        if allStarted = false then
          .ok (false,
            finish_deployment db dep "failed"
              (some "Some services failed to start"),
            tr)
        else
          let q := health_loop env app dep r.deployed_services db true
          let q :=
            if q.2 then stabilize_loop env app dep r.deployed_services q.1 true
            else q
          if q.2 then
            .ok (true, finish_deployment q.1 dep "success" none, tr)
          else
            .ok (false,
              finish_deployment q.1 dep "failed"
                (some "Some services are unhealthy or unstable"),
              tr)

/-- The body of `process_application` inside its top-level `try` (lines
73-297): configuration check, application registration, git pull and commit
resolution, then the core pipeline.  A normal return carries the returned
boolean; an `error` is an exception escaping to the top-level guard. -/
def process_application_body (env : ProcEnv) (app : String) (db : DB)
    (tr : Trace) : Except (String × DB × Trace) (Bool × DB × Trace) :=
  if env.configured = false then .ok (false, db, tr)
  else
    let db := register_application db app
    if env.use_git then
      match env.pull with
      | .raises msg => .error (msg, db, tr)
      | .ret false =>
        .ok (false,
          (record_deployment db app env.commit "failed"
            (some "Git pull failed")).1,
          tr)
      | .ret true => process_application_core env app env.commit db tr
    else
      process_application_core env app "local" db tr

/-- Embeds `ApplicationManager.process_application` including its top-level guard
(lines 299-319): any unhandled exception is caught and a fresh failed
deployment row carrying the exception text is inserted via
`record_deployment` (commit from git when configured, else `"local"`). -/
def process_application (env : ProcEnv) (app : String) (db : DB) :
    Bool × DB × Trace :=
  match process_application_body env app db Trace.empty with
  | .ok (b, db, tr) => (b, db, tr)
  | .error (msg, db, tr) =>
    let commit := if env.use_git then env.commit else "local"
    ((false, (record_deployment db app commit "failed" (some msg)).1, tr))

/-! ## Main service loop (src/main.py: main, lines 218-278) -/

/-- The attribute names `ApplicationManager.__init__` assigns on `self`
(src/core/app_manager.py lines 35-43). -/
def application_manager_attrs : List String :=
  ["config", "state_manager", "quadlet_handler", "systemd_manager",
   "git_ops", "health_checker", "processed_apps"]

/-- Python attribute lookup: raises `AttributeError` when the instance has no
such attribute. -/
def getattr (attrs : List String) (name : String) : Except String Unit :=
  if attrs.contains name then .ok ()
  else .error ("AttributeError: " ++ name)

/-- Environment of one main-loop iteration: the enabled applications, the
scheduler verdict per application, and each application's reconciliation
environment. -/
structure LoopEnv where
  enabled_apps : List String
  is_due : String → Bool
  proc_env : String → ProcEnv

/-- One iteration of the main service loop: it first evaluates
`app_manager.git_manager.reset_cycle()` — an attribute lookup on the
application manager — and only then walks the enabled applications, calling
`process_application` for each one that is due.  The surrounding
`except Exception` in `main` catches a raised error and sleeps. -/
def main_loop_iteration (lenv : LoopEnv) (db : DB) :
    Except String (DB × List (String × Bool)) :=
  match getattr application_manager_attrs "git_manager" with
  | .error e => .error e
  | .ok _ =>
    .ok (lenv.enabled_apps.foldl
      (fun acc app =>
        if lenv.is_due app then
          let r := process_application (lenv.proc_env app) app acc.1
          (r.2.1, acc.2 ++ [(app, r.1)])
        else acc)
      (db, []))

/-! ## Store operation sequences (for the Deployment status state machine) -/

/-- One public write operation of `StateManager`. -/
inductive StoreOp
  | register (app : String)
  | start (app commit : String)
  | finish (id : Nat) (status : String) (err : Option String)
  | record (app commit status : String) (err : Option String)
  | updateSvc (app svc st : String) (dep : Option Nat) (cid : Option String)
  | setErr (app : String) (svc : Option String) (msg : String)
  | addHealth (app svc status : String)
deriving Repr, DecidableEq

/-- Apply one store operation. -/
def apply_op (db : DB) : StoreOp → DB
  | .register a => register_application db a
  | .start a c => (start_deployment db a c).1
  | .finish i st e => finish_deployment db i st e
  | .record a c st e => (record_deployment db a c st e).1
  | .updateSvc a s st d cid => update_service db a s st d cid
  | .setErr a s m => set_last_error db a s m
  | .addHealth a s st => add_health_check db a s st

/-- Apply a sequence of store operations. -/
def apply_ops (db : DB) (ops : List StoreOp) : DB := ops.foldl apply_op db

/-- The discipline under which the orchestrator uses `finish_deployment`:
every `finish` in the sequence targets a row whose status is currently
`in_progress`, and closes it as `success` or `failed`.  The store itself
does not enforce this. -/
def finishes_guarded (db : DB) : List StoreOp → Bool
  | [] => true
  | op :: rest =>
    (match op with
     | .finish i st _ =>
       deployment_status db i == some "in_progress"
         && (st == "success" || st == "failed")
     | _ => true)
    && finishes_guarded (apply_op db op) rest

/-! ## Concrete inputs used by the counterexamples and witnesses -/

/-- An app whose shared repository reports no upstream changes and whose last
deployment succeeded: everything external succeeds, the manifest directory
holds one container file. -/
def envC1 : ProcEnv where
  configured := true
  use_git := true
  pull := .ret true
  commit := "abc"
  quadlet := ⟨⟨true, [⟨"web-app", ".container"⟩]⟩, fun _ => .ok⟩
  reload := .ret true
  start := fun _ => .ret true
  health := fun _ => .ok true "healthy"
  stabilize := fun _ => true

/-- A database whose most recent deployment for app `web` has status
`success`. -/
def dbC1 : DB := (record_deployment DB.empty "web" "abc" "success" none).1

/-- A reconciliation in which the systemd daemon reload raises after the
deployment row was opened. -/
def envC3 : ProcEnv where
  configured := true
  use_git := false
  pull := .ret true
  commit := "abc"
  quadlet := ⟨⟨true, [⟨"svc", ".container"⟩]⟩, fun _ => .ok⟩
  reload := .raises "boom"
  start := fun _ => .ret true
  health := fun _ => .ok true "healthy"
  stabilize := fun _ => true

/-- A reconciliation with three container services in which service `b` fails
to start while `a` and `c` start fine. -/
def envC4 : ProcEnv where
  configured := true
  use_git := false
  pull := .ret true
  commit := "abc"
  quadlet := ⟨⟨true, [⟨"a", ".container"⟩, ⟨"b", ".container"⟩,
    ⟨"c", ".container"⟩]⟩, fun _ => .ok⟩
  reload := .ret true
  start := fun s => if s == "b" then .ret false else .ret true
  health := fun _ => .ok true "healthy"
  stabilize := fun _ => true

/-- A reconciliation whose manifest directory is missing; every other
collaborator behaves. -/
def envC10 : ProcEnv where
  configured := true
  use_git := false
  pull := .ret true
  commit := "abc"
  quadlet := ⟨⟨false, [⟨"x", ".container"⟩]⟩, fun _ => .ok⟩
  reload := .ret true
  start := fun _ => .ret true
  health := fun _ => .ok true "healthy"
  stabilize := fun _ => true

/-- An unconfigured application's environment. -/
def envUnconfigured : ProcEnv where
  configured := false
  use_git := false
  pull := .ret true
  commit := "abc"
  quadlet := ⟨⟨true, []⟩, fun _ => .ok⟩
  reload := .ret true
  start := fun _ => .ret true
  health := fun _ => .ok true "healthy"
  stabilize := fun _ => true

/-- The database state at the moment the reload exception is raised in
`envC3`: the deployment row is open and `in_progress`. -/
def dbC3err : DB :=
  ⟨["web"], [⟨1, "web", "local", "in_progress", none⟩], [], [], [], 2⟩

/-- The side-effect trace at the moment the reload exception is raised in
`envC3`. -/
def trC3err : Trace := ⟨1, 1, [], []⟩

/-! ## Helper lemmas: frame properties of the store operations -/

theorem svc_key_upd (a s st : String) (d : Option Nat) (c : Option String)
    (e : Service) : svc_key a s (upd_row st d c e) = svc_key a s e := rfl

theorem upd_row_state (st : String) (d : Option Nat) (c : Option String)
    (e : Service) : (upd_row st d c e).state = st := rfl

theorem svc_key_eq {a s : String} {e : Service} (h : svc_key a s e = true) :
    e.app_name = a ∧ e.service_name = s := by
  unfold svc_key at h
  simp only [Bool.and_eq_true, beq_iff_eq] at h
  exact h

theorem update_service_deployments (db : DB) (a s st : String)
    (d : Option Nat) (c : Option String) :
    (update_service db a s st d c).deployments = db.deployments := by
  unfold update_service
  split <;> rfl

theorem update_service_next_id (db : DB) (a s st : String)
    (d : Option Nat) (c : Option String) :
    (update_service db a s st d c).next_deployment_id
      = db.next_deployment_id := by
  unfold update_service
  split <;> rfl

theorem update_service_error_log (db : DB) (a s st : String)
    (d : Option Nat) (c : Option String) :
    (update_service db a s st d c).error_log = db.error_log := by
  unfold update_service
  split <;> rfl

theorem set_last_error_deployments (db : DB) (a : String)
    (s : Option String) (m : String) :
    (set_last_error db a s m).deployments = db.deployments := by
  unfold set_last_error
  cases s <;> simp [update_service_deployments]

theorem set_last_error_next_id (db : DB) (a : String) (s : Option String)
    (m : String) :
    (set_last_error db a s m).next_deployment_id = db.next_deployment_id := by
  unfold set_last_error
  cases s <;> simp [update_service_next_id]

theorem add_health_check_deployments (db : DB) (a s st : String) :
    (add_health_check db a s st).deployments = db.deployments := by
  unfold add_health_check
  split <;> simp [update_service_deployments]

theorem register_application_deployments (db : DB) (a : String) :
    (register_application db a).deployments = db.deployments := by
  unfold register_application
  split <;> rfl

theorem register_application_next_id (db : DB) (a : String) :
    (register_application db a).next_deployment_id
      = db.next_deployment_id := by
  unfold register_application
  split <;> rfl

theorem register_application_services (db : DB) (a : String) :
    (register_application db a).services = db.services := by
  unfold register_application
  split <;> rfl

theorem find_map_upd_self (a s st : String) (d : Option Nat)
    (c : Option String) :
    ∀ l : List Service, l.any (svc_key a s) = true →
      (List.find? (svc_key a s)
        (l.map fun e => if svc_key a s e then upd_row st d c e else e)).map
          (·.state) = some st := by
  intro l
  induction l with
  | nil => intro h; simp at h
  | cons e l ih =>
    intro hany
    cases he : svc_key a s e with
    | true =>
      simp only [List.map_cons, he, if_true]
      rw [List.find?_cons_of_pos]
      · rfl
      · rw [svc_key_upd]; exact he
    | false =>
      simp only [List.any_cons, he, Bool.false_or] at hany
      simp only [List.map_cons, he, Bool.false_eq_true, if_false]
      rw [List.find?_cons_of_neg]
      · exact ih hany
      · simp [he]

/-- After `update_service` on `(a, s)`, the state of `(a, s)` is the written
state, whether the row was updated or freshly inserted. -/
theorem get_service_state_update_self (db : DB) (a s st : String)
    (d : Option Nat) (c : Option String) :
    get_service_state (update_service db a s st d c) a s = some st := by
  unfold update_service get_service_state
  split
  · rename_i hany
    exact find_map_upd_self a s st d c db.services hany
  · rename_i hany
    have hall : ∀ e ∈ db.services, ¬ (svc_key a s e = true) := by
      intro e he hk
      exact hany (List.any_eq_true.mpr ⟨e, he, hk⟩)
    show (List.find? (svc_key a s)
      (db.services ++ [⟨a, s, st, c, d⟩])).map (·.state) = some st
    rw [List.find?_append, List.find?_eq_none.mpr hall]
    simp [svc_key]

theorem find_map_upd_other (a s st : String) (d : Option Nat)
    (c : Option String) (a' x : String) (hne : ¬(a = a' ∧ s = x)) :
    ∀ l : List Service,
      (List.find? (svc_key a' x)
        (l.map fun e => if svc_key a s e then upd_row st d c e else e)).map
          (·.state)
      = (List.find? (svc_key a' x) l).map (·.state) := by
  have hkey : ∀ e : Service, svc_key a' x e = true → svc_key a s e = false := by
    intro e hk
    cases h : svc_key a s e
    · rfl
    · obtain ⟨h1, h2⟩ := svc_key_eq h
      obtain ⟨h1', h2'⟩ := svc_key_eq hk
      exact absurd ⟨h1.symm.trans h1', h2.symm.trans h2'⟩ hne
  intro l
  induction l with
  | nil => rfl
  | cons e l ih =>
    cases he : svc_key a' x e with
    | true =>
      have hse := hkey e he
      simp only [List.map_cons, hse, Bool.false_eq_true, if_false]
      rw [List.find?_cons_of_pos, List.find?_cons_of_pos]
      · exact he
      · exact he
    | false =>
      by_cases hse : svc_key a s e = true
      · simp only [List.map_cons, hse, if_true]
        rw [List.find?_cons_of_neg, List.find?_cons_of_neg]
        · exact ih
        · simp [he]
        · rw [svc_key_upd]; simp [he]
      · have hse' : svc_key a s e = false := by
          cases h : svc_key a s e
          · rfl
          · exact absurd h hse
        simp only [List.map_cons, hse', Bool.false_eq_true, if_false]
        rw [List.find?_cons_of_neg, List.find?_cons_of_neg]
        · exact ih
        · simp [he]
        · simp [he]

/-- Lemma: `update_service` on `(a, s)` leaves the state of any other service key
unchanged. -/
theorem get_service_state_update_other (db : DB) (a s st : String)
    (d : Option Nat) (c : Option String) (a' x : String)
    (hne : ¬(a = a' ∧ s = x)) :
    get_service_state (update_service db a s st d c) a' x
      = get_service_state db a' x := by
  unfold update_service get_service_state
  split
  · exact find_map_upd_other a s st d c a' x hne db.services
  · show (List.find? (svc_key a' x)
      (db.services ++ [⟨a, s, st, c, d⟩])).map (·.state)
        = (db.services.find? (svc_key a' x)).map (·.state)
    have hv : svc_key a' x ⟨a, s, st, c, d⟩ = false := by
      cases h : svc_key a' x ⟨a, s, st, c, d⟩
      · rfl
      · obtain ⟨h1, h2⟩ := svc_key_eq h
        exact absurd ⟨h1, h2⟩ hne
    rw [List.find?_append]
    simp [hv]

/-- After a service-level `set_last_error`, the service state is `error`. -/
theorem get_service_state_set_last_error_self (db : DB) (a s m : String) :
    get_service_state (set_last_error db a (some s) m) a s = some "error" := by
  unfold set_last_error
  exact get_service_state_update_self _ a s "error" none none

/-- A service-level `set_last_error` leaves other service keys unchanged. -/
theorem get_service_state_set_last_error_other (db : DB) (a s m a' x : String)
    (hne : ¬(a = a' ∧ s = x)) :
    get_service_state (set_last_error db a (some s) m) a' x
      = get_service_state db a' x := by
  unfold set_last_error
  exact get_service_state_update_other _ a s "error" none none a' x hne

/-- Lemma: `finish_deployment` rewrites the status of the targeted id (when the row
exists) and nothing else. -/
theorem deployment_status_finish_self (db : DB) (i : Nat) (st : String)
    (e : Option String) :
    deployment_status (finish_deployment db i st e) i
      = (deployment_status db i).map (fun _ => st) := by
  unfold finish_deployment deployment_status
  induction db.deployments with
  | nil => rfl
  | cons d l ih =>
    by_cases hd : (d.id == i) = true
    · simp only [List.map_cons, hd, if_true]
      rw [List.find?_cons_of_pos, List.find?_cons_of_pos]
      · rfl
      · exact hd
      · exact hd
    · have hd' : (d.id == i) = false := by
        cases h : d.id == i
        · rfl
        · exact absurd h hd
      simp only [List.map_cons, hd', Bool.false_eq_true, if_false]
      rw [List.find?_cons_of_neg, List.find?_cons_of_neg]
      · exact ih
      · simp [hd']
      · simp [hd']

/-- Lemma: `finish_deployment` leaves every other deployment id untouched. -/
theorem deployment_status_finish_other (db : DB) (i j : Nat) (st : String)
    (e : Option String) (hne : i ≠ j) :
    deployment_status (finish_deployment db j st e) i
      = deployment_status db i := by
  unfold finish_deployment deployment_status
  induction db.deployments with
  | nil => rfl
  | cons d l ih =>
    by_cases hd : (d.id == i) = true
    · have hdj : (d.id == j) = false := by
        cases h : d.id == j
        · rfl
        · exact absurd (beq_iff_eq.mp hd ▸ beq_iff_eq.mp h) hne
      simp only [List.map_cons, hdj, Bool.false_eq_true, if_false]
      rw [List.find?_cons_of_pos, List.find?_cons_of_pos]
      · exact hd
      · exact hd
    · have hd' : (d.id == i) = false := by
        cases h : d.id == i
        · rfl
        · exact absurd h hd
      by_cases hdj : (d.id == j) = true
      · simp only [List.map_cons, hdj, if_true]
        rw [List.find?_cons_of_neg, List.find?_cons_of_neg]
        · exact ih
        · simp [hd']
        · simp [hd']
      · have hdj' : (d.id == j) = false := by
          cases h : d.id == j
          · rfl
          · exact absurd h hdj
        simp only [List.map_cons, hdj', Bool.false_eq_true, if_false]
        rw [List.find?_cons_of_neg, List.find?_cons_of_neg]
        · exact ih
        · simp [hd']
        · simp [hd']

/-- The row opened by `start_deployment` exists, so its status is defined. -/
theorem deployment_status_start_isSome (db : DB) (a c : String) :
    (deployment_status (start_deployment db a c).1
      db.next_deployment_id).isSome = true := by
  unfold start_deployment deployment_status
  simp only [List.find?_append]
  cases hfind :
      (register_application db a).deployments.find?
        (fun d => d.id == db.next_deployment_id) with
  | some d => simp [Option.or, hfind]
  | none => simp [Option.or, hfind, register_application_next_id]

/-- The id returned by `start_deployment` is the store's next id. -/
theorem start_deployment_id (db : DB) (a c : String) :
    (start_deployment db a c).2 = db.next_deployment_id := by
  unfold start_deployment
  simp only [register_application_next_id]

/-- Lemma: `finish_deployment` does not touch the services table. -/
theorem get_service_state_finish (db : DB) (i : Nat) (st : String)
    (e : Option String) (a x : String) :
    get_service_state (finish_deployment db i st e) a x
      = get_service_state db a x := rfl

/-! ## Claim theorems -/

/-- C1: the claimed skip optimization does not exist in the code.  For the
app `web`, the change cache (after a cycle reset) reports no changes for its
repository and the most recent deployment has status `success`; yet
`process_application` still invokes the quadlet processor once, opens and
closes a fresh deployment row, and writes a Service row (the services table
goes from empty to one row).  The cache and the last-deployment check are
never consulted by `process_application`. -/
theorem C1_skip_check_not_implemented :
    (check_for_changes (fun _ => false) (reset_cycle GitManager.init)
        "ssh://repo").has_changes = false
    ∧ last_deployment_status dbC1 "web" = some "success"
    ∧ (process_application envC1 "web" dbC1).1 = true
    ∧ (process_application envC1 "web" dbC1).2.2.quadlet_calls = 1
    ∧ dbC1.services = []
    ∧ (process_application envC1 "web" dbC1).2.1.services
        = [⟨"web", "web-app", "running", none, some 2⟩] := by
  refine ⟨rfl, rfl, rfl, rfl, rfl, rfl⟩

/-- C2: `ApplicationManager.__init__` assigns no attribute `git_manager`, so
the per-cycle reset call `app_manager.git_manager.reset_cycle()` at the top
of every main-loop iteration raises `AttributeError` before any application
is checked against its schedule; the iteration therefore ends in the loop's
exception handler and `process_application` is never reached. -/
theorem C2_main_loop_raises_attribute_error :
    application_manager_attrs.contains "git_manager" = false
    ∧ ∀ (lenv : LoopEnv) (db : DB),
        main_loop_iteration lenv db
          = .error "AttributeError: git_manager" := by
  exact ⟨rfl, fun _ _ => rfl⟩

/-- C5: a service-level `set_last_error` appends exactly one error-log row
and overwrites the Service's state to `error`, regardless of the state the
row held before the call (or whether it existed). -/
theorem C5_set_last_error_overwrites_state :
    ∀ (db : DB) (app svc msg : String),
      (set_last_error db app (some svc) msg).error_log
          = db.error_log ++ [⟨app, some svc, msg⟩]
      ∧ get_service_state (set_last_error db app (some svc) msg) app svc
          = some "error" := by
  intro db app svc msg
  constructor
  · unfold set_last_error
    rw [update_service_error_log]
  · exact get_service_state_set_last_error_self db app svc msg

/-- C9: within one cycle, a second `check_for_changes` for the same URL
returns the first call's boolean and the two calls together perform exactly
one underlying fetch; a `reset_cycle` between them permits a second fetch. -/
theorem C9_change_cache_memoizes :
    ∀ (gm : GitManager) (oracle : String → Bool) (url : String),
      let r₁ := check_for_changes oracle (reset_cycle gm) url
      let r₂ := check_for_changes oracle r₁.gm url
      let r₃ := check_for_changes oracle (reset_cycle r₁.gm) url
      r₂.has_changes = r₁.has_changes
      ∧ r₁.fetches + r₂.fetches = 1
      ∧ r₃.fetches = 1 := by
  intro gm oracle url
  cases hb : oracle url <;>
    simp [check_for_changes, reset_cycle, hb, List.contains]

/-- C3 fails on the code: with the daemon reload raising after the
deployment row (id 1) was opened, the guard leaves row 1 permanently
`in_progress` and inserts a second, fresh `failed` row — it does not close
the opened row, and the fallback insertion is unconditional. -/
theorem C3_counterexample :
    deployment_status (process_application envC3 "web" DB.empty).2.1 1
        = some "in_progress"
    ∧ deployment_status (process_application envC3 "web" DB.empty).2.1 2
        = some "failed"
    ∧ ((process_application envC3 "web" DB.empty).2.1.deployments.map
        Deployment.status) = ["in_progress", "failed"] := by
  refine ⟨rfl, rfl, rfl⟩

/-- C4 fails on the code in exactly one point: after service `b`'s start
returns nonzero, `process_application` writes `failed` but immediately calls
`set_last_error`, which overwrites the row to `error` — so `b` does not end
the reconciliation in state `failed`. -/
theorem C4_counterexample :
    get_service_state (process_application envC4 "web" DB.empty).2.1 "web" "b"
        = some "error"
    ∧ ¬ get_service_state
          (process_application envC4 "web" DB.empty).2.1 "web" "b"
        = some "failed" := by
  exact ⟨rfl, by decide⟩

/-- C6 fails for arbitrary store-operation sequences: `finish_deployment`
does not guard terminal statuses, so finishing deployment 1 twice moves it
from the terminal status `success` back to `failed`. -/
theorem C6_counterexample :
    deployment_status
        (apply_ops DB.empty [.start "a" "c", .finish 1 "success" none]) 1
      = some "success"
    ∧ deployment_status
        (apply_ops DB.empty
          [.start "a" "c", .finish 1 "success" none,
           .finish 1 "failed" (some "again")]) 1
      = some "failed" := by
  exact ⟨rfl, rfl⟩

/-- C10 fails on the code: an app whose manifest directory is missing is
treated as having an empty manifest set — the reconciliation runs to
completion and closes its deployment with status `success`. -/
theorem C10_counterexample :
    (process_application envC10 "web" DB.empty).1 = true
    ∧ deployment_status (process_application envC10 "web" DB.empty).2.1 1
        = some "success"
    ∧ (process_application envC10 "web" DB.empty).2.1.services = [] := by
  refine ⟨rfl, rfl, rfl⟩

/-- C3 amended: whenever an unhandled exception escapes the reconciliation
body, the top-level guard unconditionally appends one fresh `failed`
deployment row carrying the exception text and returns failure; it never
closes the deployment opened at the start of the attempt, so a row opened
before the exception keeps its `in_progress` status (every pre-existing row
is untouched, as the conclusion's append equation shows). -/
theorem C3_amended_guard_appends (env : ProcEnv) (app : String) (db : DB)
    (msg : String) (db₁ : DB) (tr₁ : Trace)
    (h : process_application_body env app db Trace.empty
          = .error (msg, db₁, tr₁)) :
    (process_application env app db).1 = false
    ∧ (process_application env app db).2.1.deployments
      = db₁.deployments
        ++ [⟨db₁.next_deployment_id, app,
             if env.use_git then env.commit else "local", "failed",
             some msg⟩] := by
  unfold process_application
  rw [h]
  refine ⟨rfl, ?_⟩
  show ((record_deployment db₁ app
      (if env.use_git then env.commit else "local") "failed"
      (some msg)).1).deployments = _
  unfold record_deployment
  simp only [register_application_deployments, register_application_next_id]

theorem C3_amended_guard_appends_witness :
    process_application_body envC3 "web" DB.empty Trace.empty
        = .error ("boom", dbC3err, trC3err)
    ∧ (process_application envC3 "web" DB.empty).2.1.deployments
      = dbC3err.deployments
        ++ [⟨dbC3err.next_deployment_id, "web",
             if envC3.use_git then envC3.commit else "local", "failed",
             some "boom"⟩] :=
  ⟨rfl,
   (C3_amended_guard_appends envC3 "web" DB.empty "boom" dbC3err trC3err
     rfl).2⟩

/-- Lemma: `deployment_status` only depends on the deployments table. -/
theorem deployment_status_congr {db₁ db₂ : DB} (i : Nat)
    (h : db₁.deployments = db₂.deployments) :
    deployment_status db₁ i = deployment_status db₂ i := by
  unfold deployment_status
  rw [h]

/-- Appending rows never changes the status of an id that already resolves
(the first match wins). -/
theorem deployment_status_append (db : DB) (i : Nat) (s : String)
    (l : List Deployment)
    (h : deployment_status db i = some s) :
    (List.find? (fun d => d.id == i) (db.deployments ++ l)).map (·.status)
      = some s := by
  unfold deployment_status at h
  obtain ⟨d, hd, hst⟩ := Option.map_eq_some'.mp h
  rw [List.find?_append, hd]
  simpa using hst

/-- One store operation changes a defined deployment status only through a
guarded `finish`, and then only from `in_progress` to `success`/`failed`. -/
theorem deployment_status_step (db : DB) (op : StoreOp) (i : Nat)
    (s s' : String)
    (hg : (match op with
      | .finish j st _ =>
        deployment_status db j == some "in_progress"
          && (st == "success" || st == "failed")
      | _ => true) = true)
    (h1 : deployment_status db i = some s)
    (h2 : deployment_status (apply_op db op) i = some s')
    (hne : s ≠ s') :
    s = "in_progress" ∧ (s' = "success" ∨ s' = "failed") := by
  cases op with
  | register a =>
    simp only [apply_op] at h2
    rw [deployment_status_congr i (register_application_deployments db a)]
      at h2
    rw [h1] at h2
    exact absurd (Option.some.inj h2) hne
  | start a c =>
    simp only [apply_op] at h2
    unfold start_deployment deployment_status at h2
    simp only [register_application_deployments,
      register_application_next_id] at h2
    rw [deployment_status_append db i s _ h1] at h2
    exact absurd (Option.some.inj h2) hne
  | record a c st e =>
    simp only [apply_op] at h2
    unfold record_deployment deployment_status at h2
    simp only [register_application_deployments,
      register_application_next_id] at h2
    rw [deployment_status_append db i s _ h1] at h2
    exact absurd (Option.some.inj h2) hne
  | updateSvc a sv st dep cid =>
    simp only [apply_op] at h2
    rw [deployment_status_congr i
      (update_service_deployments db a sv st dep cid)] at h2
    rw [h1] at h2
    exact absurd (Option.some.inj h2) hne
  | setErr a sv m =>
    simp only [apply_op] at h2
    rw [deployment_status_congr i (set_last_error_deployments db a sv m)]
      at h2
    rw [h1] at h2
    exact absurd (Option.some.inj h2) hne
  | addHealth a sv st =>
    simp only [apply_op] at h2
    rw [deployment_status_congr i (add_health_check_deployments db a sv st)]
      at h2
    rw [h1] at h2
    exact absurd (Option.some.inj h2) hne
  | finish j st e =>
    simp only [apply_op] at h2
    simp only [Bool.and_eq_true, Bool.or_eq_true, beq_iff_eq] at hg
    obtain ⟨hj, hst⟩ := hg
    by_cases hij : i = j
    · subst hij
      rw [h1] at hj
      have hs : s = "in_progress" := Option.some.inj hj
      rw [deployment_status_finish_self db i st e, h1] at h2
      simp only [Option.map_some'] at h2
      exact ⟨hs, (Option.some.inj h2) ▸ hst⟩
    · rw [deployment_status_finish_other db i j st e hij, h1] at h2
      exact absurd (Option.some.inj h2) hne

/-- C6 amended: from a fresh store, along any operation sequence in which
every `finish_deployment` targets a row currently `in_progress` and closes
it as `success` or `failed` (the discipline the orchestrator follows), a
deployment's status only ever changes from `in_progress` to `success` or
`failed` — and therefore never leaves a terminal status.  The store itself
does not enforce the discipline (see the counterexample). -/
theorem C6_amended_terminal_write_once :
    ∀ (ops₁ : List StoreOp) (db : DB) (op : StoreOp) (ops₂ : List StoreOp)
      (i : Nat) (s s' : String),
      finishes_guarded db (ops₁ ++ op :: ops₂) = true →
      deployment_status (apply_ops db ops₁) i = some s →
      deployment_status (apply_ops db (ops₁ ++ [op])) i = some s' →
      s ≠ s' →
      s = "in_progress" ∧ (s' = "success" ∨ s' = "failed") := by
  intro ops₁
  induction ops₁ with
  | nil =>
    intro db op ops₂ i s s' hg h1 h2 hne
    simp only [List.nil_append] at hg h2
    have hg' := hg
    unfold finishes_guarded at hg'
    simp only [Bool.and_eq_true] at hg'
    exact deployment_status_step db op i s s'
      hg'.1 h1 (by simpa [apply_ops] using h2) hne
  | cons x rest ih =>
    intro db op ops₂ i s s' hg h1 h2 hne
    have hg' : finishes_guarded (apply_op db x) (rest ++ op :: ops₂)
        = true := by
      simp only [List.cons_append] at hg
      unfold finishes_guarded at hg
      simp only [Bool.and_eq_true] at hg
      exact hg.2
    exact ih (apply_op db x) op ops₂ i s s' hg'
      (by simpa [apply_ops] using h1) (by simpa [apply_ops] using h2) hne

theorem C6_amended_terminal_write_once_witness :
    finishes_guarded DB.empty
        [StoreOp.start "a" "c", StoreOp.finish 1 "success" none] = true
    ∧ deployment_status (apply_ops DB.empty [StoreOp.start "a" "c"]) 1
        = some "in_progress"
    ∧ ("in_progress" = "in_progress"
        ∧ ("success" = "success" ∨ "success" = "failed")) :=
  ⟨by decide, by decide,
   C6_amended_terminal_write_once [StoreOp.start "a" "c"] DB.empty
     (StoreOp.finish 1 "success" none) [] 1 "in_progress" "success"
     (by decide) (by decide) (by decide) (by decide)⟩

/-! ## Ordering and first-failure lemmas for the quadlet pipeline -/

theorem mem_filter_type {files : List QFile} {t : QType} {f : QFile}
    (h : f ∈ files.filter fun g => get_file_type g == t) :
    get_file_type f = t := by
  have := (List.mem_filter.mp h).2
  exact beq_iff_eq.mp this

theorem pairwise_filter_block (files : List QFile) (t : QType) :
    (files.filter fun g => get_file_type g == t).Pairwise
      (fun a b => (get_file_type a).rank ≤ (get_file_type b).rank) := by
  apply List.pairwise_of_forall_mem_list
  intro a ha b hb
  rw [mem_filter_type ha, mem_filter_type hb]

/-- The deployed sequence is rank-monotone: files are grouped Network,
Volume, Image, Container, Config regardless of the discovery order. -/
theorem ordered_files_pairwise (files : List QFile) :
    (ordered_files files).Pairwise
      (fun a b => (get_file_type a).rank ≤ (get_file_type b).rank) := by
  unfold ordered_files
  simp only [List.append_assoc]
  refine List.pairwise_append.mpr
    ⟨pairwise_filter_block files .network, ?_, ?_⟩
  · refine List.pairwise_append.mpr
      ⟨pairwise_filter_block files .volume, ?_, ?_⟩
    · refine List.pairwise_append.mpr
        ⟨pairwise_filter_block files .image, ?_, ?_⟩
      · refine List.pairwise_append.mpr
          ⟨pairwise_filter_block files .container,
           pairwise_filter_block files .config, ?_⟩
        intro a ha b hb
        rw [mem_filter_type ha, mem_filter_type hb]
        decide
      · intro a ha b hb
        rw [mem_filter_type ha]
        rcases List.mem_append.mp hb with h | h
        · rw [mem_filter_type h]; decide
        · rw [mem_filter_type h]; decide
    · intro a ha b hb
      rw [mem_filter_type ha]
      rcases List.mem_append.mp hb with h | h
      · rw [mem_filter_type h]; decide
      rcases List.mem_append.mp h with h | h
      · rw [mem_filter_type h]; decide
      · rw [mem_filter_type h]; decide
  · intro a ha b hb
    rw [mem_filter_type ha]
    exact Nat.zero_le _

theorem perm_pull_head {α : Type} (A L : List α) (f : α) :
    (A ++ f :: L).Perm (f :: (A ++ L)) := List.perm_middle

theorem perm_pull_head2 {α : Type} (A B L : List α) (f : α) :
    (A ++ (B ++ f :: L)).Perm (f :: (A ++ (B ++ L))) :=
  List.Perm.trans (List.Perm.append_left A (perm_pull_head B L f))
    List.perm_middle

theorem perm_pull_head3 {α : Type} (A B C L : List α) (f : α) :
    (A ++ (B ++ (C ++ f :: L))).Perm (f :: (A ++ (B ++ (C ++ L)))) :=
  List.Perm.trans (List.Perm.append_left A (perm_pull_head2 B C L f))
    List.perm_middle

theorem perm_pull_head4 {α : Type} (A B C D L : List α) (f : α) :
    (A ++ (B ++ (C ++ (D ++ f :: L)))).Perm
      (f :: (A ++ (B ++ (C ++ (D ++ L))))) :=
  List.Perm.trans (List.Perm.append_left A (perm_pull_head3 B C D L f))
    List.perm_middle

/-- The deployed sequence is a permutation of the discovered files: every
discovered file is deployed exactly once. -/
theorem ordered_files_perm (files : List QFile) :
    (ordered_files files).Perm files := by
  induction files with
  | nil => exact List.Perm.refl _
  | cons f fs ih =>
    simp only [ordered_files, List.append_assoc] at ih ⊢
    simp only [List.filter_cons]
    cases ht : get_file_type f with
    | network =>
      simp only [show (QType.network == QType.network) = true from rfl,
        show (QType.network == QType.volume) = false from rfl,
        show (QType.network == QType.image) = false from rfl,
        show (QType.network == QType.container) = false from rfl,
        show (QType.network == QType.config) = false from rfl,
        if_true, Bool.false_eq_true, if_false]
      exact ih.cons f
    | volume =>
      simp only [show (QType.volume == QType.network) = false from rfl,
        show (QType.volume == QType.volume) = true from rfl,
        show (QType.volume == QType.image) = false from rfl,
        show (QType.volume == QType.container) = false from rfl,
        show (QType.volume == QType.config) = false from rfl,
        if_true, Bool.false_eq_true, if_false]
      exact List.Perm.trans (perm_pull_head _ _ f) (ih.cons f)
    | image =>
      simp only [show (QType.image == QType.network) = false from rfl,
        show (QType.image == QType.volume) = false from rfl,
        show (QType.image == QType.image) = true from rfl,
        show (QType.image == QType.container) = false from rfl,
        show (QType.image == QType.config) = false from rfl,
        if_true, Bool.false_eq_true, if_false]
      exact List.Perm.trans (perm_pull_head2 _ _ _ f) (ih.cons f)
    | container =>
      simp only [show (QType.container == QType.network) = false from rfl,
        show (QType.container == QType.volume) = false from rfl,
        show (QType.container == QType.image) = false from rfl,
        show (QType.container == QType.container) = true from rfl,
        show (QType.container == QType.config) = false from rfl,
        if_true, Bool.false_eq_true, if_false]
      exact List.Perm.trans (perm_pull_head3 _ _ _ _ f) (ih.cons f)
    | config =>
      simp only [show (QType.config == QType.network) = false from rfl,
        show (QType.config == QType.volume) = false from rfl,
        show (QType.config == QType.image) = false from rfl,
        show (QType.config == QType.container) = false from rfl,
        show (QType.config == QType.config) = true from rfl,
        if_true, Bool.false_eq_true, if_false]
      exact List.Perm.trans (perm_pull_head4 _ _ _ _ _ f) (ih.cons f)

/-- When every file succeeds, the per-file loop copies every file in order
and reports the container stems. -/
theorem pa_go_ok (outcome : QFile → FileOutcome) :
    ∀ (l : List QFile) (d : List String) (c : List QFile),
      (∀ g ∈ l, outcome g = .ok) →
      pa_go outcome l d c = ⟨true, d ++ container_stems l, c ++ l⟩ := by
  intro l
  induction l with
  | nil =>
    intro d c _
    simp [pa_go, container_stems]
  | cons f rest ih =>
    intro d c hall
    have hf : outcome f = .ok := hall f (List.mem_cons_self f rest)
    simp only [pa_go, hf]
    rw [ih _ _ (fun g hg => hall g (List.mem_cons_of_mem f hg))]
    unfold container_stems
    by_cases hc : (get_file_type f == QType.container) = true
    · simp [hc, List.filter_cons, List.append_assoc]
    · have hc' : (get_file_type f == QType.container) = false := by
        cases h : get_file_type f == QType.container
        · rfl
        · exact absurd h hc
      simp [hc', List.filter_cons, List.append_assoc]

/-- The per-file loop stops at the first failing file, returning the
container stems deployed before it; every file copied before the failure is
still in the accumulated copy list (none is removed). -/
theorem pa_go_first_failure (outcome : QFile → FileOutcome) :
    ∀ (pre : List QFile) (f : QFile) (post : List QFile) (d : List String)
      (c : List QFile),
      (∀ g ∈ pre, outcome g = .ok) →
      ¬ outcome f = .ok →
      pa_go outcome (pre ++ f :: post) d c
        = ⟨false, d ++ container_stems pre, c ++ pre⟩ := by
  intro pre
  induction pre with
  | nil =>
    intro f post d c _ hf
    cases ho : outcome f with
    | ok => exact absurd ho hf
    | templateErr m => simp [pa_go, ho, container_stems]
    | copyFail => simp [pa_go, ho, container_stems]
  | cons g pre ih =>
    intro f post d c hall hf
    have hg : outcome g = .ok := hall g (List.mem_cons_self g pre)
    simp only [List.cons_append, pa_go, hg, List.append_eq]
    rw [ih f post _ _ (fun x hx => hall x (List.mem_cons_of_mem g hx)) hf]
    unfold container_stems
    by_cases hc : (get_file_type g == QType.container) = true
    · simp [hc, List.filter_cons, List.append_assoc]
    · have hc' : (get_file_type g == QType.container) = false := by
        cases h : get_file_type g == QType.container
        · rfl
        · exact absurd h hc
      simp [hc', List.filter_cons, List.append_assoc]

/-- C7: for every manifest directory and any enumeration order of its files,
`process_and_deploy` (with all files succeeding) copies exactly the
discovered files, in a sequence that is rank-monotone in the fixed order
Network, Volume, Image, Container, Config. -/
theorem C7_deploy_order_grouped :
    ∀ d : QuadletDir,
      (process_and_deploy ⟨d, fun _ => FileOutcome.ok⟩).copied
          = ordered_files (find_quadlet_files d)
      ∧ (ordered_files (find_quadlet_files d)).Perm (find_quadlet_files d)
      ∧ (ordered_files (find_quadlet_files d)).Pairwise
          (fun a b => (get_file_type a).rank ≤ (get_file_type b).rank) := by
  intro d
  refine ⟨?_, ordered_files_perm _, ordered_files_pairwise _⟩
  unfold process_and_deploy
  by_cases he : (find_quadlet_files d).isEmpty = true
  · have h0 : find_quadlet_files d = [] := List.isEmpty_iff.mp he
    rw [h0]
    simp [ordered_files]
  · simp only [he, Bool.false_eq_true, if_false]
    rw [pa_go_ok _ _ [] [] (fun g _ => rfl)]
    simp

/-- C8: on the first failing file (template error or copy failure),
`process_and_deploy` stops, returns failure together with exactly the
container names deployed before the failure, and every file copied into the
managed directory in this attempt is still there (the copy list is exactly
the prefix before the failure — nothing is removed). -/
theorem C8_first_failure_stops (env : PAEnv) (pre : List QFile) (f : QFile)
    (post : List QFile)
    (hseq : ordered_files (find_quadlet_files env.dir) = pre ++ f :: post)
    (hpre : ∀ g ∈ pre, env.outcome g = .ok)
    (hf : ¬ env.outcome f = .ok) :
    process_and_deploy env
      = ⟨false, container_stems pre, pre⟩ := by
  unfold process_and_deploy
  have hne : ¬ (find_quadlet_files env.dir).isEmpty = true := by
    intro he
    have h0 : find_quadlet_files env.dir = [] := List.isEmpty_iff.mp he
    rw [h0] at hseq
    simp [ordered_files] at hseq
  have hne' : (find_quadlet_files env.dir).isEmpty = false := by
    cases h : (find_quadlet_files env.dir).isEmpty
    · rfl
    · exact absurd h hne
  simp only [hne', Bool.false_eq_true, if_false]
  rw [hseq, pa_go_first_failure env.outcome pre f post [] [] hpre hf]
  simp

/-- An environment for the C8 witness: one network file that deploys fine,
then one container file whose copy fails. -/
def envC8 : PAEnv :=
  ⟨⟨true, [⟨"app", ".container"⟩, ⟨"net", ".network"⟩]⟩,
   fun g => if g.ext == ".container" then .copyFail else .ok⟩

theorem C8_first_failure_stops_witness :
    ordered_files (find_quadlet_files envC8.dir)
        = [⟨"net", ".network"⟩] ++ ⟨"app", ".container"⟩ :: []
    ∧ (∀ g ∈ [(⟨"net", ".network"⟩ : QFile)], envC8.outcome g = .ok)
    ∧ ¬ envC8.outcome ⟨"app", ".container"⟩ = .ok
    ∧ process_and_deploy envC8
        = ⟨false, container_stems [⟨"net", ".network"⟩],
           [⟨"net", ".network"⟩]⟩ :=
  ⟨by decide, by decide, by decide,
   C8_first_failure_stops envC8 [⟨"net", ".network"⟩] ⟨"app", ".container"⟩
     [] (by decide) (by decide) (by decide)⟩

/-! ## Lemmas about the service-start loop -/

theorem finish_deployment_services (db : DB) (i : Nat) (st : String)
    (e : Option String) :
    (finish_deployment db i st e).services = db.services := rfl

theorem start_deployment_services (db : DB) (a c : String) :
    ((start_deployment db a c).1).services = db.services := by
  unfold start_deployment
  simp only [register_application_services]

/-- If no start call raises, the start loop returns normally: the trace
gains exactly the processed services in order (and no stop is ever issued),
the deployments table is untouched, and the returned flag records whether
every start returned success. -/
theorem start_loop_ok (env : ProcEnv) (app : String) (dep : Nat)
    (hno : ∀ s, ∃ v, env.start s = ExtCall.ret v) :
    ∀ (l : List String) (db : DB) (tr : Trace) (acc : Bool),
      ∃ db', start_loop env app dep l db tr acc
          = .ok (db', { tr with started := tr.started ++ l },
                 acc && l.all fun s => env.start s == ExtCall.ret true)
        ∧ db'.deployments = db.deployments
        ∧ db'.next_deployment_id = db.next_deployment_id := by
  intro l
  induction l with
  | nil =>
    intro db tr acc
    refine ⟨db, ?_, rfl, rfl⟩
    simp [start_loop]
  | cons svc rest ih =>
    intro db tr acc
    obtain ⟨v, hv⟩ := hno svc
    cases v with
    | true =>
      obtain ⟨db', h1, h2, h3⟩ := ih
        (update_service (update_service db app svc "starting" (some dep) none)
          app svc "running" (some dep) none)
        { tr with started := tr.started ++ [svc] } acc
      refine ⟨db', ?_, ?_, ?_⟩
      · simp only [start_loop, hv]
        rw [h1]
        simp [List.append_assoc, List.all_cons, hv]
      · rw [h2, update_service_deployments, update_service_deployments]
      · rw [h3, update_service_next_id, update_service_next_id]
    | false =>
      obtain ⟨db', h1, h2, h3⟩ := ih
        (set_last_error
          (update_service
            (update_service db app svc "starting" (some dep) none)
            app svc "failed" (some dep) none)
          app (some svc) "Failed to start service")
        { tr with started := tr.started ++ [svc] } false
      refine ⟨db', ?_, ?_, ?_⟩
      · simp only [start_loop, hv]
        rw [h1]
        simp [List.append_assoc, List.all_cons, hv]
      · rw [h2, set_last_error_deployments, update_service_deployments,
          update_service_deployments]
      · rw [h3, set_last_error_next_id, update_service_next_id,
          update_service_next_id]

/-- The start loop does not touch the service row of a name not in its
work list. -/
theorem start_loop_other (env : ProcEnv) (app : String) (dep : Nat)
    (x : String) :
    ∀ (l : List String) (db : DB) (tr : Trace) (acc : Bool) (db' : DB)
      (tr' : Trace) (fl : Bool),
      x ∉ l →
      start_loop env app dep l db tr acc = .ok (db', tr', fl) →
      get_service_state db' app x = get_service_state db app x := by
  intro l
  induction l with
  | nil =>
    intro db tr acc db' tr' fl _ hrun
    simp only [start_loop] at hrun
    cases hrun
    rfl
  | cons svc rest ih =>
    intro db tr acc db' tr' fl hx hrun
    have hsvc : ¬ (app = app ∧ svc = x) := by
      intro hk
      exact hx (hk.2 ▸ List.mem_cons_self svc rest)
    have hxr : x ∉ rest := fun h => hx (List.mem_cons_of_mem svc h)
    simp only [start_loop] at hrun
    cases hcall : env.start svc with
    | raises m =>
      rw [hcall] at hrun
      cases hrun
    | ret v =>
      rw [hcall] at hrun
      cases v with
      | true =>
        have := ih _ _ _ _ _ _ hxr hrun
        rw [this, get_service_state_update_other _ _ _ _ _ _ _ _ hsvc,
          get_service_state_update_other _ _ _ _ _ _ _ _ hsvc]
      | false =>
        have := ih _ _ _ _ _ _ hxr hrun
        rw [this, get_service_state_set_last_error_other _ _ _ _ _ _ hsvc,
          get_service_state_update_other _ _ _ _ _ _ _ _ hsvc,
          get_service_state_update_other _ _ _ _ _ _ _ _ hsvc]

/-- A service whose start succeeds and which does not appear again later in
the work list ends the start loop in state `running`. -/
theorem start_loop_state_true (env : ProcEnv) (app : String) (dep : Nat)
    (x : String) (hx : env.start x = ExtCall.ret true) :
    ∀ (l₁ l₂ : List String) (db : DB) (tr : Trace) (acc : Bool) (db' : DB)
      (tr' : Trace) (fl : Bool),
      x ∉ l₂ →
      start_loop env app dep (l₁ ++ (x :: l₂)) db tr acc
        = .ok (db', tr', fl) →
      get_service_state db' app x = some "running" := by
  intro l₁
  induction l₁ with
  | nil =>
    intro l₂ db tr acc db' tr' fl hx2 hrun
    simp only [List.nil_append, start_loop, hx] at hrun
    rw [start_loop_other env app dep x l₂ _ _ _ _ _ _ hx2 hrun]
    exact get_service_state_update_self _ app x "running" (some dep) none
  | cons svc rest ih =>
    intro l₂ db tr acc db' tr' fl hx2 hrun
    simp only [List.cons_append, start_loop] at hrun
    cases hcall : env.start svc with
    | raises m =>
      rw [hcall] at hrun
      cases hrun
    | ret v =>
      rw [hcall] at hrun
      cases v with
      | true => exact ih _ _ _ _ _ _ _ hx2 hrun
      | false => exact ih _ _ _ _ _ _ _ hx2 hrun

/-- A service whose start fails ends the start loop in state `error` (the
`failed` write is immediately overwritten by `set_last_error`). -/
theorem start_loop_state_false (env : ProcEnv) (app : String) (dep : Nat)
    (x : String) (hx : env.start x = ExtCall.ret false) :
    ∀ (l : List String) (db : DB) (tr : Trace) (acc : Bool) (db' : DB)
      (tr' : Trace) (fl : Bool),
      x ∈ l →
      start_loop env app dep l db tr acc = .ok (db', tr', fl) →
      get_service_state db' app x = some "error" := by
  intro l
  induction l with
  | nil =>
    intro db tr acc db' tr' fl hmem
    exact absurd hmem (List.not_mem_nil x)
  | cons svc rest ih =>
    intro db tr acc db' tr' fl hmem hrun
    simp only [start_loop] at hrun
    by_cases hsx : svc = x
    · subst hsx
      rw [hx] at hrun
      by_cases hrmem : svc ∈ rest
      · exact ih _ _ _ _ _ _ hrmem hrun
      · rw [start_loop_other env app dep svc rest _ _ _ _ _ _ hrmem hrun]
        exact get_service_state_set_last_error_self _ app svc
          "Failed to start service"
    · have hrmem : x ∈ rest := by
        cases List.mem_cons.mp hmem with
        | inl h => exact absurd h.symm hsx
        | inr h => exact h
      cases hcall : env.start svc with
      | raises m =>
        rw [hcall] at hrun
        cases hrun
      | ret v =>
        rw [hcall] at hrun
        cases v with
        | true => exact ih _ _ _ _ _ _ hrmem hrun
        | false => exact ih _ _ _ _ _ _ hrmem hrun

/-- A missing manifest directory yields an empty discovery, which
`process_and_deploy` reports as success with no deployed services. -/
theorem process_and_deploy_missing_dir (env : PAEnv)
    (h : env.dir.present = false) :
    process_and_deploy env = ⟨true, [], []⟩ := by
  unfold process_and_deploy find_quadlet_files
  simp [h]

/-- C4 amended: when service `a` starts successfully and a later service `b`
returns a nonzero start result (no start raising), every deployed service is
still attempted in order, no stop is ever issued, the deployment is closed
`failed`, `a`'s row is left `running` — but `b`'s row ends the
reconciliation in state `error`, not `failed`: the `failed` write is
immediately overwritten by `set_last_error`. -/
theorem C4_amended_start_failure (env : ProcEnv) (app : String) (db : DB)
    (pre mid post : List String) (a b : String)
    (hconf : env.configured = true)
    (hgit : env.use_git = false)
    (hq : (process_and_deploy env.quadlet).success = true)
    (hlist : (process_and_deploy env.quadlet).deployed_services
      = pre ++ (a :: (mid ++ (b :: post))))
    (hno : ∀ s, ∃ v, env.start s = ExtCall.ret v)
    (ha : env.start a = ExtCall.ret true)
    (hb : env.start b = ExtCall.ret false)
    (hnotin : a ∉ mid ++ (b :: post))
    (hreload : env.reload = ExtCall.ret true) :
    (process_application env app db).1 = false
    ∧ (process_application env app db).2.2.started
        = pre ++ (a :: (mid ++ (b :: post)))
    ∧ (process_application env app db).2.2.stopped = []
    ∧ deployment_status (process_application env app db).2.1
        db.next_deployment_id = some "failed"
    ∧ get_service_state (process_application env app db).2.1 app a
        = some "running"
    ∧ get_service_state (process_application env app db).2.1 app b
        = some "error" := by
  have hmem : b ∈ (process_and_deploy env.quadlet).deployed_services := by
    rw [hlist]; simp
  have hflag : ((process_and_deploy env.quadlet).deployed_services.all
      fun s => env.start s == ExtCall.ret true) = false := by
    cases hall : ((process_and_deploy env.quadlet).deployed_services.all
        fun s => env.start s == ExtCall.ret true) with
    | false => rfl
    | true =>
      have hbt := List.all_eq_true.mp hall b hmem
      rw [hb] at hbt
      simp at hbt
  obtain ⟨db', hrun, hdl, hnx⟩ :=
    start_loop_ok env app
      (start_deployment (register_application db app) app "local").2 hno
      ((process_and_deploy env.quadlet).deployed_services)
      ((start_deployment (register_application db app) app "local").1)
      ⟨0 + 1, 0 + 1, [], []⟩ true
  have heval : process_application env app db
      = (false,
         finish_deployment db'
           (start_deployment (register_application db app) app "local").2
           "failed" (some "Some services failed to start"),
         ⟨0 + 1, 0 + 1,
          [] ++ (process_and_deploy env.quadlet).deployed_services, []⟩) := by
    unfold process_application process_application_body
      process_application_core
    simp only [hconf, hgit, hq, hreload, Bool.false_eq_true, if_false,
      if_true, Trace.empty, hrun, Bool.true_and, hflag]
    rfl
  have hid : (start_deployment (register_application db app) app "local").2
      = db.next_deployment_id := by
    rw [start_deployment_id, register_application_next_id]
  have hsome : (deployment_status db' db.next_deployment_id).isSome
      = true := by
    rw [deployment_status_congr db.next_deployment_id hdl]
    have := deployment_status_start_isSome (register_application db app) app
      "local"
    rw [register_application_next_id] at this
    exact this
  obtain ⟨s0, hs0⟩ := Option.isSome_iff_exists.mp hsome
  rw [hlist] at hrun
  refine ⟨?_, ?_, ?_, ?_, ?_, ?_⟩
  · rw [heval]
  · rw [heval]
    exact hlist
  · rw [heval]
  · rw [heval]
    show deployment_status (finish_deployment db' _ "failed" _)
      db.next_deployment_id = some "failed"
    rw [hid, deployment_status_finish_self, hs0]
    rfl
  · rw [heval]
    rw [get_service_state_finish]
    exact start_loop_state_true env app _ a ha pre (mid ++ (b :: post))
      _ _ _ _ _ _ hnotin hrun
  · rw [heval]
    rw [get_service_state_finish]
    refine start_loop_state_false env app _ b hb
      (pre ++ (a :: (mid ++ (b :: post)))) _ _ _ _ _ _ ?_ hrun
    simp

theorem C4_amended_start_failure_witness :
    ((process_and_deploy envC4.quadlet).success = true
      ∧ (process_and_deploy envC4.quadlet).deployed_services
          = [] ++ ("a" :: ([] ++ ("b" :: ["c"])))
      ∧ envC4.start "a" = ExtCall.ret true
      ∧ envC4.start "b" = ExtCall.ret false)
    ∧ ((process_application envC4 "web" DB.empty).1 = false
      ∧ (process_application envC4 "web" DB.empty).2.2.started
          = [] ++ ("a" :: ([] ++ ("b" :: ["c"])))
      ∧ (process_application envC4 "web" DB.empty).2.2.stopped = []
      ∧ deployment_status (process_application envC4 "web" DB.empty).2.1
          DB.empty.next_deployment_id = some "failed"
      ∧ get_service_state (process_application envC4 "web" DB.empty).2.1
          "web" "a" = some "running"
      ∧ get_service_state (process_application envC4 "web" DB.empty).2.1
          "web" "b" = some "error") :=
  ⟨⟨by decide, by decide, by decide, by decide⟩,
   C4_amended_start_failure envC4 "web" DB.empty [] [] ["c"] "a" "b"
     rfl rfl (by decide) (by decide)
     (fun s => by
       by_cases h : s = "b"
       · exact ⟨false, by simp [envC4, h]⟩
       · exact ⟨true, by simp [envC4, h]⟩)
     (by decide) (by decide) (by decide) rfl⟩

/-- C10 amended: an unconfigured application fails fast with no store write
at all (no Deployment row); but a missing manifest directory is treated as
an empty manifest set — the reconciliation completes, closes its deployment
with status `success`, writes no Service rows and starts nothing. -/
theorem C10_amended_missing_dir_succeeds :
    ∀ (env : ProcEnv) (app : String) (db : DB),
      (env.configured = false →
        process_application env app db = (false, db, Trace.empty))
      ∧ (env.configured = true → env.use_git = false →
          env.quadlet.dir.present = false →
          env.reload = ExtCall.ret true →
          (process_application env app db).1 = true
          ∧ deployment_status (process_application env app db).2.1
              db.next_deployment_id = some "success"
          ∧ (process_application env app db).2.1.services = db.services
          ∧ (process_application env app db).2.2.started = []) := by
  intro env app db
  constructor
  · intro hconf
    unfold process_application process_application_body
    simp [hconf]
  · intro hconf hgit hdir hreload
    have hpd : process_and_deploy env.quadlet = ⟨true, [], []⟩ :=
      process_and_deploy_missing_dir env.quadlet hdir
    have heval : process_application env app db
        = (true,
           finish_deployment
             (start_deployment (register_application db app) app "local").1
             (start_deployment (register_application db app) app "local").2
             "success" none,
           ⟨0 + 1, 0 + 1, [], []⟩) := by
      unfold process_application process_application_body
        process_application_core
      simp only [hconf, hgit, hreload, hpd, Bool.false_eq_true, if_false,
        if_true, Trace.empty]
      rfl
    have hid : (start_deployment (register_application db app) app "local").2
        = db.next_deployment_id := by
      rw [start_deployment_id, register_application_next_id]
    have hsome : (deployment_status
        (start_deployment (register_application db app) app "local").1
        db.next_deployment_id).isSome = true := by
      have := deployment_status_start_isSome (register_application db app)
        app "local"
      rw [register_application_next_id] at this
      exact this
    obtain ⟨s0, hs0⟩ := Option.isSome_iff_exists.mp hsome
    refine ⟨?_, ?_, ?_, ?_⟩
    · rw [heval]
    · rw [heval]
      show deployment_status (finish_deployment _ _ "success" none)
        db.next_deployment_id = some "success"
      rw [hid, deployment_status_finish_self, hs0]
      rfl
    · rw [heval]
      show (finish_deployment _ _ "success" none).services = db.services
      rw [finish_deployment_services, start_deployment_services,
        register_application_services]
    · rw [heval]

theorem C10_amended_missing_dir_succeeds_witness :
    (envUnconfigured.configured = false
      ∧ process_application envUnconfigured "web" DB.empty
          = (false, DB.empty, Trace.empty))
    ∧ (envC10.configured = true ∧ envC10.quadlet.dir.present = false
      ∧ (process_application envC10 "web" DB.empty).1 = true
      ∧ deployment_status (process_application envC10 "web" DB.empty).2.1
          DB.empty.next_deployment_id = some "success") :=
  ⟨⟨rfl,
    (C10_amended_missing_dir_succeeds envUnconfigured "web" DB.empty).1 rfl⟩,
   ⟨rfl, rfl,
    ((C10_amended_missing_dir_succeeds envC10 "web" DB.empty).2 rfl rfl rfl
      rfl).1,
    ((C10_amended_missing_dir_succeeds envC10 "web" DB.empty).2 rfl rfl rfl
      rfl).2.1⟩⟩

end PodmanGitops
